import Mathlib

/-!
Shallow embedding of the turn-based battle engine (player vs. enemy, each a
lead character plus soldier stacks) and proofs about its damage model, unit
model, item application and battle orchestrator.

Modelling conventions:
* JavaScript numbers carrying game quantities (hit points, attack, defense,
  stack quantities, rounds, timers, damage) are embedded as `Int`;
  `Math.max`/`Math.min` become `max`/`min`, `Math.floor(a / b)` becomes
  `Int.fdiv` and the JS remainder `%` becomes `Int.tmod` (these agree with
  mathematical floor division and mod on the nonnegative operands arising in
  the code paths below).
* Entity id strings are abstracted to an id type with decidable equality;
  only equality of ids is ever observed by the engine.
* Display-only strings (unit names, log message text) are not modelled;
  each distinct log-message production site in the source becomes one
  constructor of `LogMsg`, so the presence and order of log entries is kept
  while their rendered text is not.
* Optional TS fields: `soldiers?: Soldier[]` becomes a `List` (the code
  treats `undefined` and `[]` identically everywhere), `formation?` becomes
  the two-valued `Formation` (`undefined` behaves as `player-first` in every
  check), `preparationTimer?: number` stays an `Option Int` because the
  source expression `state.preparationTimer || 30` distinguishes `undefined`
  (and `0`!) from positive values, and `preparationActionTaken?: boolean`
  becomes `Bool` (`undefined` behaves as `false`).
* Thrown `GameError`s become `Except GameErrorType`; the error message
  strings are not modelled, only the error type enum.
* In-place array mutation (`soldiers[i] = x`, `splice`, `push`) becomes
  explicit state passing over `List`s.
-/

namespace Battle

/-- Entity ids (TS `string` ids such as `"player"`, `"item-0"`), abstracted
to a type with decidable equality. -/
abbrev EntityId := Nat

/-- The `type` tag of a character, TS `'player' | 'enemy'`. -/
inductive CharType where
  | player
  | enemy
deriving DecidableEq, Repr

/-- Formation preference, TS `'soldiers-first' | 'player-first'`. -/
inductive Formation where
  | soldiersFirst
  | playerFirst
deriving DecidableEq, Repr

/-- A soldier stack (TS interface `Soldier`). -/
structure Soldier where
  id : EntityId
  maxHp : Int
  currentHp : Int
  attack : Int
  defense : Int
  quantity : Int
  maxQuantity : Int
deriving DecidableEq, Repr

/-- A lead character (TS interface `Character`). -/
structure Character where
  id : EntityId
  maxHp : Int
  currentHp : Int
  attack : Int
  defense : Int
  ctype : CharType
  soldiers : List Soldier
  formation : Formation
deriving DecidableEq, Repr

/-- Item type, TS `'healing_potion'` is the only member. -/
inductive ItemType where
  | healingPotion
deriving DecidableEq, Repr

/-- Item effect payload, TS `{ heal?: number }`. -/
structure ItemEffect where
  heal : Option Int
deriving DecidableEq, Repr

/-- A consumable item (TS interface `Item`). -/
structure Item where
  id : EntityId
  itype : ItemType
  effect : ItemEffect
  quantity : Int
deriving DecidableEq, Repr

/-- Battle phase, TS `'preparation' | 'battle' | 'resolution'`. -/
inductive BattlePhase where
  | preparation
  | battle
  | resolution
deriving DecidableEq, Repr

/-- A pending attack intent (TS interface `BattleAction`). -/
structure BattleAction where
  attackerId : EntityId
  targetId : EntityId
deriving DecidableEq, Repr

/-- Target kind of a damage record, TS `'character' | 'soldier'`. -/
inductive TargetType where
  | character
  | soldier
deriving DecidableEq, Repr

/-- A computed-but-not-yet-applied damage record (TS interface
`DamageRecord`; the display-name fields are not modelled). -/
structure DamageRecord where
  attackerId : EntityId
  targetId : EntityId
  damage : Int
  targetType : TargetType
  soldierId : Option EntityId
deriving DecidableEq, Repr

/-- One constructor per distinct log-message production site in the source;
the rendered message text is not modelled. -/
inductive LogMsg where
  | roundPreparationBegins
  | roundBattleBegins
  | characterDamaged
  | soldierDamaged
  | battleConcluded
  | roundEnded
  | itemSelected
  | itemHealedSoldier
  | itemHealedCharacter
  | enteredBattle
  | timerAutoAdvance
  | playerItemNoAttack
  | playerAutoAttack
  | playerSoldierAttack
  | enemyAutoAttack
  | enemySoldierAttack
  | pendingCharacterDamage
  | pendingSoldierDamage
deriving DecidableEq, Repr

/-- An append-only battle log entry (TS interface `BattleLogEntry`). -/
structure LogEntry where
  phase : BattlePhase
  msg : LogMsg
  round : Int
deriving DecidableEq, Repr

/-- A pending item-use selection (TS `pendingItemUse` payload). -/
structure PendingItemUse where
  itemId : EntityId
  targetId : EntityId
deriving DecidableEq, Repr

/-- Winner tag, TS `'player' | 'enemy'`. -/
inductive Side where
  | player
  | enemy
deriving DecidableEq, Repr

/-- The whole battle state (TS interface `BattleState`, the variant carrying
`calculatedDamages`). -/
structure BattleState where
  currentRound : Int
  currentPhase : BattlePhase
  player : Character
  enemy : Character
  playerItems : List Item
  battleLog : List LogEntry
  pendingActions : List BattleAction
  calculatedDamages : List DamageRecord
  isGameOver : Bool
  winner : Option Side
  preparationTimer : Option Int
  preparationActionTaken : Bool
  pendingItemUse : Option PendingItemUse
deriving DecidableEq, Repr

/-- Typed error enumeration (TS enum `GameErrorType`). -/
inductive GameErrorType where
  | INVALID_ACTION
  | INSUFFICIENT_ITEMS
  | BATTLE_ALREADY_ENDED
  | INVALID_PHASE
  | CHARACTER_DEAD
deriving DecidableEq, Repr

/-- Result type of the mutating engine operations: TS functions that return
a new `BattleState` or throw a `GameError`. -/
abbrev BattleM := Except GameErrorType BattleState

/-- The `Character | Soldier` union used by `calculateDamage` and
`createDamageRecord` in `damageCalculation.ts`. -/
inductive Combatant where
  | chara (c : Character)
  | soldier (s : Soldier)
deriving DecidableEq, Repr

/-- Attack stat of a combatant (TS property access `.attack` on the union). -/
def Combatant.attack : Combatant → Int
  | .chara c => c.attack
  | .soldier s => s.attack

/-- Defense stat of a combatant (TS property access `.defense`). -/
def Combatant.defense : Combatant → Int
  | .chara c => c.defense
  | .soldier s => s.defense

/-- Id of a combatant (TS property access `.id`). -/
def Combatant.id : Combatant → EntityId
  | .chara c => c.id
  | .soldier s => s.id

/-- Configuration constant `DAMAGE_CALCULATION.MIN_DAMAGE` from
`gameConfig.ts`. -/
def MIN_DAMAGE : Int := 1

/-- TS `calculateDamage` (damageCalculation): `max(MIN_DAMAGE, attacker.attack
- defender.defense)`. -/
def calculateDamage (attacker defender : Combatant) : Int :=
  max MIN_DAMAGE (attacker.attack - defender.defense)

/-- TS `applyDamage` (damageCalculation): clamps the character's hit points
at zero from below. -/
def applyDamage (character : Character) (damage : Int) : Character :=
  { character with currentHp := max 0 (character.currentHp - damage) }

/-- TS `applySoldierDamage`, the closed-form variant: a first front unit dies
whenever `damage` reaches its hit points; the excess kills
`floor(excess / maxHp)` further whole units; a surviving front unit keeps
`maxHp - excess % maxHp`; a fully depleted stack is forced to quantity 0
and hit points 0. -/
def applySoldierDamage (soldier : Soldier) (damage : Int) : Soldier :=
  if damage < soldier.currentHp then
    { soldier with currentHp := soldier.currentHp - damage }
  else
    let excessDamage := damage - soldier.currentHp
    let soldiersLost := Int.fdiv excessDamage soldier.maxHp + 1
    let newQuantity := max 0 (soldier.quantity - soldiersLost)
    if newQuantity > 0 then
      { soldier with
          quantity := newQuantity,
          currentHp := soldier.maxHp - Int.tmod excessDamage soldier.maxHp }
    else
      { soldier with quantity := 0, currentHp := 0 }

/-- TS `applySoldierDamage`, the loop variant (`damageCalculation.ts`):
absorbs the damage unit by unit in a `while` loop; recursion replaces the
loop, decreasing on the stack quantity. -/
def applySoldierDamageLoop (soldier : Soldier) (remainingDamage : Int) : Soldier :=
  if _h : remainingDamage > 0 ∧ soldier.quantity > 0 then
    if soldier.currentHp > remainingDamage then
      { soldier with currentHp := soldier.currentHp - remainingDamage }
    else
      applySoldierDamageLoop
        (if soldier.quantity - 1 > 0 then
          { soldier with quantity := soldier.quantity - 1, currentHp := soldier.maxHp }
        else
          { soldier with quantity := soldier.quantity - 1, currentHp := 0 })
        (remainingDamage - soldier.currentHp)
  else
    soldier
termination_by soldier.quantity.toNat
decreasing_by
  split <;> simp only [] <;> omega

/-- TS `isCharacterAlive` (character.ts): positive hit points. -/
def isCharacterAlive (character : Character) : Bool :=
  decide (character.currentHp > 0)

/-- TS `isSoldierAlive` (character.ts): positive hit points and positive
quantity. -/
def isSoldierAlive (soldier : Soldier) : Bool :=
  decide (soldier.currentHp > 0) && decide (soldier.quantity > 0)

/-- TS `updateCharacterHp` (character.ts): clamps the new hit points into
`[0, maxHp]`. -/
def updateCharacterHp (character : Character) (newHp : Int) : Character :=
  { character with currentHp := max 0 (min newHp character.maxHp) }

/-- TS `updateSoldierHp` (character.ts). -/
def updateSoldierHp (soldier : Soldier) (newHp : Int) : Soldier :=
  { soldier with currentHp := max 0 (min newHp soldier.maxHp) }

/-- TS `healCharacter` (character.ts): `min(maxHp, currentHp + amount)`
then the `updateCharacterHp` clamp. -/
def healCharacter (character : Character) (amount : Int) : Character :=
  updateCharacterHp character (min character.maxHp (character.currentHp + amount))

/-- TS `isCharacterOrSoldiersAlive` (character.ts): the authoritative side
liveness check — the lead character is alive, or some soldier stack is. -/
def isCharacterOrSoldiersAlive (character : Character) : Bool :=
  isCharacterAlive character || character.soldiers.any isSoldierAlive

/-- TS `canUseItem` (items.ts): usable iff quantity is positive. -/
def canUseItem (item : Item) : Bool :=
  decide (item.quantity > 0)

/-- TS `useHealingPotion` (items.ts): `null` unless the item is usable, is a
healing potion and has a truthy heal amount (the JS guard `!item.effect.heal`
rejects both a missing and a zero heal); otherwise decrements the item and
heals the character. -/
def useHealingPotion (item : Item) (character : Character) :
    Option (Item × Character) :=
  if ¬ canUseItem item then none
  else if item.itype ≠ ItemType.healingPotion then none
  else
    match item.effect.heal with
    | none => none
    | some healAmount =>
      if healAmount = 0 then none
      else
        some ({ item with quantity := item.quantity - 1 },
              healCharacter character healAmount)

/-- Result shape of `findAttackTarget` (part_007). -/
structure AttackTarget where
  targetType : TargetType
  soldier : Option Soldier
deriving DecidableEq, Repr

/-- TS `findAttackTarget` (part_007): with a soldiers-first defender and a
nonempty simulated stack list, target the first alive stack; otherwise the
lead character. -/
def findAttackTarget (defender : Character) (defenderSoldiers : List Soldier) :
    AttackTarget :=
  if defender.formation = Formation.soldiersFirst ∧ defenderSoldiers.isEmpty = false then
    match defenderSoldiers.find? (fun s => isSoldierAlive s) with
    | some aliveSoldier => ⟨TargetType.soldier, some aliveSoldier⟩
    | none => ⟨TargetType.character, none⟩
  else ⟨TargetType.character, none⟩

/-- TS `createDamageRecord` (part_007), without the display-name fields. -/
def createDamageRecord (attacker : Combatant) (defender : Character)
    (damage : Int) (target : AttackTarget) : DamageRecord :=
  { attackerId := attacker.id
    targetId := defender.id
    damage := damage
    targetType := target.targetType
    soldierId :=
      match target.targetType, target.soldier with
      | TargetType.soldier, some s => some s.id
      | _, _ => none }

/-- Index and element of the first item with the given id; models the TS
pattern `findIndex` on id equality followed by an index access. -/
def findItemEntry : List Item → EntityId → Option (Nat × Item)
  | [], _ => none
  | item :: rest, itemId =>
    if item.id = itemId then some (0, item)
    else (findItemEntry rest itemId).map (fun p => (p.1 + 1, p.2))

/-- Index and element of the first soldier stack with the given id; models
the TS pattern `findIndex` on id equality followed by an index access. -/
def findSoldierEntry : List Soldier → EntityId → Option (Nat × Soldier)
  | [], _ => none
  | s :: rest, soldierId =>
    if s.id = soldierId then some (0, s)
    else (findSoldierEntry rest soldierId).map (fun p => (p.1 + 1, p.2))

/-- Shared tail of both attack steps in `processAttack` (part_007): when the
resolved target is a stack, write the damaged stack back into the simulated
defender list and `splice` it out when depleted. -/
def updateDefenderSoldiers (defenderSoldiers : List Soldier)
    (target : AttackTarget) (damage : Int) : List Soldier :=
  match target.targetType, target.soldier with
  | TargetType.soldier, some targetSoldier =>
    match findSoldierEntry defenderSoldiers targetSoldier.id with
    | some (soldierIndex, _) =>
      let updatedSoldier := applySoldierDamage targetSoldier damage
      let replaced := defenderSoldiers.set soldierIndex updatedSoldier
      if updatedSoldier.quantity ≤ 0 then replaced.eraseIdx soldierIndex else replaced
    | none => defenderSoldiers
  | _, _ => defenderSoldiers

/-- The per-attacking-stack loop of `processAttack` (part_007): each alive
attacking stack re-resolves its target against the current simulated
defender stacks, records the damage, and updates the simulation. -/
def soldierAttacksLoop (defender : Character) :
    List Soldier → List Soldier → List DamageRecord →
    List Soldier × List DamageRecord
  | [], defenderSoldiers, damageRecords => (defenderSoldiers, damageRecords)
  | soldier :: rest, defenderSoldiers, damageRecords =>
    let soldierTarget := findAttackTarget defender defenderSoldiers
    let soldierDamage :=
      calculateDamage (Combatant.soldier soldier)
        (match soldierTarget.targetType, soldierTarget.soldier with
         | TargetType.soldier, some s => Combatant.soldier s
         | _, _ => Combatant.chara defender)
    soldierAttacksLoop defender rest
      (updateDefenderSoldiers defenderSoldiers soldierTarget soldierDamage)
      (damageRecords ++
        [createDamageRecord (Combatant.soldier soldier) defender soldierDamage soldierTarget])

/-- TS `processAttack` (part_007): a dead attacker contributes nothing; the
attacking side's alive stacks strike first (in stack order), then the lead
character, with the defender's simulated stacks updated after every strike. -/
def processAttack (attacker : Character) (attackerSoldiers : List Soldier)
    (defender : Character) (defenderSoldiers : List Soldier)
    (damageRecords : List DamageRecord) : List Soldier × List DamageRecord :=
  if ¬ isCharacterAlive attacker then (defenderSoldiers, damageRecords)
  else
    let aliveSoldiers := attackerSoldiers.filter (fun s => isSoldierAlive s)
    let afterSoldiers := soldierAttacksLoop defender aliveSoldiers defenderSoldiers damageRecords
    let target := findAttackTarget defender afterSoldiers.1
    let characterDamage :=
      calculateDamage (Combatant.chara attacker)
        (match target.targetType, target.soldier with
         | TargetType.soldier, some s => Combatant.soldier s
         | _, _ => Combatant.chara defender)
    (updateDefenderSoldiers afterSoldiers.1 target characterDamage,
     afterSoldiers.2 ++
       [createDamageRecord (Combatant.chara attacker) defender characterDamage target])

/-- TS `calculateBattleDamages` (part_007): the player side attacks the
enemy, then the enemy side attacks the player, each against a running
simulated copy of the defending stacks (depleted stacks filtered first). -/
def calculateBattleDamages (state : BattleState) : List DamageRecord :=
  let tempPlayerSoldiers := state.player.soldiers.filter (fun s => decide (s.quantity > 0))
  let tempEnemySoldiers := state.enemy.soldiers.filter (fun s => decide (s.quantity > 0))
  let playerPass := processAttack state.player state.player.soldiers state.enemy tempEnemySoldiers []
  let enemyPass := processAttack state.enemy state.enemy.soldiers state.player tempPlayerSoldiers playerPass.2
  enemyPass.2

/-- TS `startPreparationPhase` (part_006): guard on game over, reset the
countdown and action flag, log the phase entry. -/
def startPreparationPhase (state : BattleState) : BattleM :=
  if state.isGameOver then Except.error GameErrorType.BATTLE_ALREADY_ENDED
  else Except.ok { state with
    currentPhase := BattlePhase.preparation,
    preparationTimer := some 30,
    preparationActionTaken := false,
    battleLog := state.battleLog ++
      [⟨BattlePhase.preparation, LogMsg.roundPreparationBegins, state.currentRound⟩] }

/-- TS `applyDamageToTarget` (part_006): apply character damage and append a
resolution log line. -/
def applyDamageToTarget (target : Character) (damage : Int)
    (newLog : List LogEntry) (round : Int) : Character × List LogEntry :=
  (applyDamage target damage,
   newLog ++ [⟨BattlePhase.resolution, LogMsg.characterDamaged, round⟩])

/-- TS `applyDamageToSoldierTarget` (part_006): damage the matching stack by
id, if any, and append a resolution log line when a stack was hit. -/
def applyDamageToSoldierTarget (target : Character) (soldierId : EntityId)
    (damage : Int) (newLog : List LogEntry) (round : Int) :
    Character × List LogEntry :=
  match findSoldierEntry target.soldiers soldierId with
  | none => (target, newLog)
  | some (soldierIndex, s) =>
    ({ target with soldiers := target.soldiers.set soldierIndex (applySoldierDamage s damage) },
     newLog ++ [⟨BattlePhase.resolution, LogMsg.soldierDamaged, round⟩])

/-- The record-application loop of `startResolutionPhase` (part_006),
threading the player copy, the enemy copy and the log through the damage
records in original order. -/
def applyDamageRecords (playerId enemyId : EntityId) (round : Int) :
    List DamageRecord → Character → Character → List LogEntry →
    Character × Character × List LogEntry
  | [], playerCopy, enemyCopy, newLog => (playerCopy, enemyCopy, newLog)
  | damageRecord :: rest, playerCopy, enemyCopy, newLog =>
    match damageRecord.targetType with
    | TargetType.character =>
      if damageRecord.targetId = playerId then
        let r := applyDamageToTarget playerCopy damageRecord.damage newLog round
        applyDamageRecords playerId enemyId round rest r.1 enemyCopy r.2
      else if damageRecord.targetId = enemyId then
        let r := applyDamageToTarget enemyCopy damageRecord.damage newLog round
        applyDamageRecords playerId enemyId round rest playerCopy r.1 r.2
      else
        applyDamageRecords playerId enemyId round rest playerCopy enemyCopy newLog
    | TargetType.soldier =>
      match damageRecord.soldierId with
      | some soldierId =>
        if damageRecord.targetId = playerId then
          let r := applyDamageToSoldierTarget playerCopy soldierId damageRecord.damage newLog round
          applyDamageRecords playerId enemyId round rest r.1 enemyCopy r.2
        else if damageRecord.targetId = enemyId then
          let r := applyDamageToSoldierTarget enemyCopy soldierId damageRecord.damage newLog round
          applyDamageRecords playerId enemyId round rest playerCopy r.1 r.2
        else
          applyDamageRecords playerId enemyId round rest playerCopy enemyCopy newLog
      | none =>
        applyDamageRecords playerId enemyId round rest playerCopy enemyCopy newLog

/-- TS `nextRound` (part_006): from the resolution phase of a still-running
battle, advance to the next round's preparation phase (this variant does not
reset the countdown or the action flag here). -/
def nextRound (state : BattleState) : BattleM :=
  if state.currentPhase ≠ BattlePhase.resolution then Except.error GameErrorType.INVALID_PHASE
  else if state.isGameOver then Except.error GameErrorType.BATTLE_ALREADY_ENDED
  else Except.ok { state with
    currentRound := state.currentRound + 1,
    currentPhase := BattlePhase.preparation,
    battleLog := state.battleLog ++
      [⟨BattlePhase.resolution, LogMsg.roundEnded, state.currentRound⟩] }

/-- TS `startResolutionPhase` (part_006): battle-phase only; apply every
calculated damage record in original order to copies of the two characters,
then evaluate both sides' liveness: any dead side sets `isGameOver` and the
winner and stops in the resolution phase, otherwise the round auto-advances
through `nextRound`. -/
def startResolutionPhase (state : BattleState) : BattleM :=
  if state.currentPhase ≠ BattlePhase.battle then Except.error GameErrorType.INVALID_PHASE
  else
    let r := applyDamageRecords state.player.id state.enemy.id state.currentRound
      state.calculatedDamages state.player state.enemy state.battleLog
    let playerCopy := r.1
    let enemyCopy := r.2.1
    let newLog := r.2.2
    let isPlayerAlive := isCharacterOrSoldiersAlive playerCopy
    let isEnemyAlive := isCharacterOrSoldiersAlive enemyCopy
    if isPlayerAlive = false ∨ isEnemyAlive = false then
      Except.ok { state with
        player := playerCopy,
        enemy := enemyCopy,
        currentPhase := BattlePhase.resolution,
        pendingActions := [],
        battleLog := newLog ++
          [⟨BattlePhase.resolution, LogMsg.battleConcluded, state.currentRound⟩],
        isGameOver := true,
        winner := some (if isPlayerAlive then Side.player else Side.enemy) }
    else
      nextRound { state with
        player := playerCopy,
        enemy := enemyCopy,
        currentPhase := BattlePhase.resolution,
        pendingActions := [],
        battleLog := newLog,
        isGameOver := false,
        winner := none }

/-- TS `selectItem` (part_006 = battleLogic.ts): preparation-phase only,
once per round; an unknown id is invalid, an exhausted item insufficient;
success records the pending use with the player lead character as target. -/
def selectItem (state : BattleState) (itemId : EntityId) : BattleM :=
  if state.currentPhase ≠ BattlePhase.preparation then Except.error GameErrorType.INVALID_PHASE
  else if state.isGameOver then Except.error GameErrorType.BATTLE_ALREADY_ENDED
  else if state.pendingItemUse.isSome then Except.error GameErrorType.INVALID_ACTION
  else
    match findItemEntry state.playerItems itemId with
    | none => Except.error GameErrorType.INVALID_ACTION
    | some (_, item) =>
      if ¬ canUseItem item then Except.error GameErrorType.INSUFFICIENT_ITEMS
      else Except.ok { state with
        pendingItemUse := some ⟨item.id, state.player.id⟩,
        battleLog := state.battleLog ++
          [⟨BattlePhase.preparation, LogMsg.itemSelected, state.currentRound⟩] }

/-- The character-target branch of `executePendingItemUse` (part_006):
resolve the recorded target id against the two characters and heal it. -/
def executeItemOnCharacter (state : BattleState) (targetId : EntityId)
    (itemIndex : Nat) (item : Item) : BattleM :=
  if targetId = state.player.id ∨ targetId = state.enemy.id then
    let target := if targetId = state.player.id then state.player else state.enemy
    match useHealingPotion item target with
    | none => Except.error GameErrorType.INVALID_ACTION
    | some (updatedItem, updatedTarget) =>
      Except.ok { state with
        player := if updatedTarget.id = state.player.id then updatedTarget else state.player,
        enemy := if updatedTarget.id = state.player.id then state.enemy else updatedTarget,
        playerItems := state.playerItems.set itemIndex updatedItem,
        pendingItemUse := none,
        battleLog := state.battleLog ++
          [⟨BattlePhase.battle, LogMsg.itemHealedCharacter, state.currentRound⟩] }
  else Except.error GameErrorType.INVALID_ACTION

/-- TS `executePendingItemUse` (part_006): battle-phase only; a missing
pending use is a no-op; when the player's formation is soldiers-first, the
stack list is nonempty and its first stack is alive, the heal is redirected
to that stack's front unit via a character-shaped projection (quantity
untouched); otherwise the recorded target character is healed. -/
def executePendingItemUse (state : BattleState) : BattleM :=
  if state.currentPhase ≠ BattlePhase.battle then Except.error GameErrorType.INVALID_PHASE
  else if state.isGameOver then Except.error GameErrorType.BATTLE_ALREADY_ENDED
  else
    match state.pendingItemUse with
    | none => Except.ok state
    | some pending =>
      match findItemEntry state.playerItems pending.itemId with
      | none => Except.error GameErrorType.INVALID_ACTION
      | some (itemIndex, item) =>
        if ¬ canUseItem item then Except.error GameErrorType.INSUFFICIENT_ITEMS
        else
          match state.player.formation, state.player.soldiers with
          | Formation.soldiersFirst, firstSoldier :: restSoldiers =>
            if isSoldierAlive firstSoldier then
              let soldierAsCharacter : Character :=
                { id := firstSoldier.id, maxHp := firstSoldier.maxHp,
                  currentHp := firstSoldier.currentHp, attack := firstSoldier.attack,
                  defense := firstSoldier.defense, ctype := CharType.player,
                  soldiers := [], formation := Formation.playerFirst }
              match useHealingPotion item soldierAsCharacter with
              | none => Except.error GameErrorType.INVALID_ACTION
              | some (updatedItem, updatedSoldierAsCharacter) =>
                Except.ok { state with
                  player := { state.player with
                    soldiers := { firstSoldier with
                      currentHp := updatedSoldierAsCharacter.currentHp } :: restSoldiers },
                  playerItems := state.playerItems.set itemIndex updatedItem,
                  pendingItemUse := none,
                  battleLog := state.battleLog ++
                    [⟨BattlePhase.battle, LogMsg.itemHealedSoldier, state.currentRound⟩] }
            else executeItemOnCharacter state pending.targetId itemIndex item
          | _, _ => executeItemOnCharacter state pending.targetId itemIndex item

/-- TS `enterBattle` (part_006): preparation-phase only, not after game
over, and the player lead character must itself be alive (soldier-only
survival does not pass this check). -/
def enterBattle (state : BattleState) : BattleM :=
  if state.currentPhase ≠ BattlePhase.preparation then Except.error GameErrorType.INVALID_PHASE
  else if state.isGameOver then Except.error GameErrorType.BATTLE_ALREADY_ENDED
  else if ¬ isCharacterAlive state.player then Except.error GameErrorType.CHARACTER_DEAD
  else Except.ok { state with
    battleLog := state.battleLog ++
      [⟨BattlePhase.preparation, LogMsg.enteredBattle, state.currentRound⟩] }

/-- The JS expression `state.preparationTimer || 30`: an unset timer and a
zero timer are both falsy and default to 30. -/
def timerOrDefault : Option Int → Int
  | none => 30
  | some t => if t = 0 then 30 else t

/-- TS `decreasePreparationTimer` (part_006 = battleLogic.ts):
preparation-phase only; decrements `preparationTimer || 30` by one; when the
result reaches 0 with no action taken this round, clamps the timer to 0 and
logs the automatic-advance notice. -/
def decreasePreparationTimer (state : BattleState) : BattleM :=
  if state.currentPhase ≠ BattlePhase.preparation then Except.error GameErrorType.INVALID_PHASE
  else if state.isGameOver then Except.error GameErrorType.BATTLE_ALREADY_ENDED
  else
    let newTimer := timerOrDefault state.preparationTimer - 1
    if newTimer ≤ 0 ∧ state.preparationActionTaken = false then
      Except.ok { state with
        preparationTimer := some 0,
        battleLog := state.battleLog ++
          [⟨BattlePhase.preparation, LogMsg.timerAutoAdvance, state.currentRound⟩] }
    else
      Except.ok { state with preparationTimer := some newTimer }

/-- TS `markPreparationActionTaken` (part_006): preparation-phase only; sets
the action-taken flag. -/
def markPreparationActionTaken (state : BattleState) : BattleM :=
  if state.currentPhase ≠ BattlePhase.preparation then Except.error GameErrorType.INVALID_PHASE
  else if state.isGameOver then Except.error GameErrorType.BATTLE_ALREADY_ENDED
  else Except.ok { state with preparationActionTaken := true }

/-- The record-announcement loop of `autoExecuteBattlePhase` (part_006): one
battle-phase log line per damage record with positive damage. -/
def damageAnnouncements (damageRecords : List DamageRecord) (round : Int) :
    List LogEntry :=
  damageRecords.filterMap (fun damageRecord =>
    if damageRecord.damage > 0 then
      match damageRecord.targetType with
      | TargetType.character => some ⟨BattlePhase.battle, LogMsg.pendingCharacterDamage, round⟩
      | TargetType.soldier => some ⟨BattlePhase.battle, LogMsg.pendingSoldierDamage, round⟩
    else none)

/-- TS `autoExecuteBattlePhase` (part_006): battle-phase only, not after
game over; executes a pending item use (suppressing the player attack) or
enqueues the player lead and first alive player stack attacks; enqueues the
enemy lead and first alive enemy stack attacks; computes the round's damage
records; and invokes the resolution phase. -/
def autoExecuteBattlePhase (state : BattleState) : BattleM := do
  if state.currentPhase ≠ BattlePhase.battle then throw GameErrorType.INVALID_PHASE
  if state.isGameOver then throw GameErrorType.BATTLE_ALREADY_ENDED
  let stage1 : BattleState × List LogEntry ←
    match state.pendingItemUse with
    | some _ => do
      let st ← executePendingItemUse state
      pure (st, st.battleLog ++ [⟨BattlePhase.battle, LogMsg.playerItemNoAttack, state.currentRound⟩])
    | none =>
      let st := { state with
        pendingActions := state.pendingActions ++ [⟨state.player.id, state.enemy.id⟩] }
      let log := state.battleLog ++ [⟨BattlePhase.battle, LogMsg.playerAutoAttack, state.currentRound⟩]
      match state.player.soldiers.filter (fun s => isSoldierAlive s) with
      | [] => pure (st, log)
      | firstSoldier :: _ =>
        pure ({ st with pendingActions := st.pendingActions ++ [⟨firstSoldier.id, state.enemy.id⟩] },
              log ++ [⟨BattlePhase.battle, LogMsg.playerSoldierAttack, state.currentRound⟩])
  let st2 := { stage1.1 with
    pendingActions := stage1.1.pendingActions ++ [⟨state.enemy.id, state.player.id⟩] }
  let log2 := stage1.2 ++ [⟨BattlePhase.battle, LogMsg.enemyAutoAttack, state.currentRound⟩]
  let stage3 : BattleState × List LogEntry :=
    match state.enemy.soldiers.filter (fun s => isSoldierAlive s) with
    | [] => (st2, log2)
    | firstSoldier :: _ =>
      ({ st2 with pendingActions := st2.pendingActions ++ [⟨firstSoldier.id, state.player.id⟩] },
       log2 ++ [⟨BattlePhase.battle, LogMsg.enemySoldierAttack, state.currentRound⟩])
  let damageRecords := calculateBattleDamages stage3.1
  startResolutionPhase { stage3.1 with
    calculatedDamages := damageRecords,
    battleLog := stage3.2 ++ damageAnnouncements damageRecords state.currentRound }

/-- TS `startBattlePhase` (part_006): preparation-phase only; enters the
battle phase, logs it, and immediately auto-executes the whole battle phase
(so the caller observes resolution output or the next round). -/
def startBattlePhase (state : BattleState) : BattleM :=
  if state.currentPhase ≠ BattlePhase.preparation then Except.error GameErrorType.INVALID_PHASE
  else autoExecuteBattlePhase { state with
    currentPhase := BattlePhase.battle,
    battleLog := state.battleLog ++
      [⟨BattlePhase.battle, LogMsg.roundBattleBegins, state.currentRound⟩] }

/-! ## Concrete sample data for witnesses and counterexamples -/

/-- A lead character shaped like the default player configuration
(`gameConfig.ts`: maxHp 100, attack 20, defense 5). -/
def samplePlayer : Character :=
  ⟨1, 100, 100, 20, 5, CharType.player, [], Formation.playerFirst⟩

/-- A lead character shaped like the default enemy configuration
(`gameConfig.ts`: maxHp 80, attack 15, defense 3). -/
def sampleEnemy : Character :=
  ⟨2, 80, 80, 15, 3, CharType.enemy, [], Formation.playerFirst⟩

/-- A soldier stack shaped like the default soldier configuration
(`gameConfig.ts`: maxHp 30, attack 10, defense 2, quantity 3 of 5). -/
def sampleStack : Soldier := ⟨11, 30, 30, 10, 2, 3, 5⟩

/-- A healing potion shaped like the default item configuration
(`gameConfig.ts`: heal 30, quantity 5). -/
def samplePotion : Item := ⟨100, ItemType.healingPotion, ⟨some 30⟩, 5⟩

/-- A freshly initialized battle state over the sample entities. -/
def sampleState : BattleState :=
  { currentRound := 1
    currentPhase := BattlePhase.preparation
    player := samplePlayer
    enemy := sampleEnemy
    playerItems := [samplePotion]
    battleLog := []
    pendingActions := []
    calculatedDamages := []
    isGameOver := false
    winner := none
    preparationTimer := some 30
    preparationActionTaken := false
    pendingItemUse := none }

/-- A battle-phase state with no damage to apply whose player lead is dead
while a player soldier stack survives; both sides pass the liveness check. -/
def sampleBothAliveState : BattleState :=
  { sampleState with
    currentPhase := BattlePhase.battle
    player := { samplePlayer with currentHp := 0, soldiers := [sampleStack] } }

/-- A battle-phase state with no damage to apply whose enemy side is fully
dead; only the player passes the liveness check. -/
def sampleOneAliveState : BattleState :=
  { sampleState with
    currentPhase := BattlePhase.battle
    enemy := { sampleEnemy with currentHp := 0 } }

/-- A battle-phase state with a pending potion use whose player formation is
soldiers-first with a dead first stack but a living second stack. -/
def sampleDeadFrontState : BattleState :=
  { sampleState with
    currentPhase := BattlePhase.battle
    player := { samplePlayer with
      currentHp := 50
      formation := Formation.soldiersFirst
      soldiers := [⟨11, 30, 0, 10, 2, 0, 5⟩, ⟨12, 30, 10, 10, 2, 2, 5⟩] }
    pendingItemUse := some ⟨100, 1⟩ }

/-- A battle-phase state with a pending potion use whose player formation is
soldiers-first with a living (damaged) first stack. -/
def sampleAliveFrontState : BattleState :=
  { sampleState with
    currentPhase := BattlePhase.battle
    player := { samplePlayer with
      formation := Formation.soldiersFirst
      soldiers := [⟨11, 30, 10, 10, 2, 2, 5⟩] }
    pendingItemUse := some ⟨100, 1⟩ }

/-! ## Helper lemmas -/

/-- Rewrites the JS-style floor division and remainder of
`applySoldierDamage` into mathematical `/` and `%` on the nonnegative
operands of its overflow branch. -/
theorem applySoldierDamage_of_le (s : Soldier) (damage : Int)
    (hge : s.currentHp ≤ damage) (hM : 0 < s.maxHp) :
    applySoldierDamage s damage =
      if 0 < max 0 (s.quantity - ((damage - s.currentHp) / s.maxHp + 1)) then
        { s with
            quantity := max 0 (s.quantity - ((damage - s.currentHp) / s.maxHp + 1)),
            currentHp := s.maxHp - (damage - s.currentHp) % s.maxHp }
      else { s with quantity := 0, currentHp := 0 } := by
  have hnot : ¬ damage < s.currentHp := not_lt.mpr hge
  have hex : 0 ≤ damage - s.currentHp := by omega
  have hfd : Int.fdiv (damage - s.currentHp) s.maxHp = (damage - s.currentHp) / s.maxHp :=
    Int.fdiv_eq_ediv _ (le_of_lt hM)
  have htm : Int.tmod (damage - s.currentHp) s.maxHp = (damage - s.currentHp) % s.maxHp :=
    Int.tmod_eq_emod hex (le_of_lt hM)
  simp only [applySoldierDamage, if_neg hnot, hfd, htm, gt_iff_lt]

/-- Invariant preservation of the closed-form stack damage. -/
theorem applySoldierDamage_invariants (s : Soldier) (damage : Int)
    (hs0 : 0 ≤ s.currentHp) (hs1 : s.currentHp ≤ s.maxHp)
    (hq0 : 0 ≤ s.quantity) (hq1 : s.quantity ≤ s.maxQuantity)
    (hM : 1 ≤ s.maxHp) (hz : s.quantity = 0 → s.currentHp = 0)
    (hd : 0 ≤ damage) :
    0 ≤ (applySoldierDamage s damage).currentHp ∧
    (applySoldierDamage s damage).currentHp ≤ (applySoldierDamage s damage).maxHp ∧
    0 ≤ (applySoldierDamage s damage).quantity ∧
    (applySoldierDamage s damage).quantity ≤ (applySoldierDamage s damage).maxQuantity ∧
    ((applySoldierDamage s damage).quantity = 0 →
      (applySoldierDamage s damage).currentHp = 0) := by
  by_cases hlt : damage < s.currentHp
  · simp only [applySoldierDamage, if_pos hlt]
    obtain h0 | h0 := eq_or_ne s.quantity 0
    · have hc := hz h0
      exact ⟨by omega, by omega, by omega, by omega, fun _ => by omega⟩
    · exact ⟨by omega, by omega, by omega, by omega, fun hqz => (h0 hqz).elim⟩
  · have hge : s.currentHp ≤ damage := le_of_not_lt hlt
    have hex : 0 ≤ damage - s.currentHp := by omega
    have hdivnn : 0 ≤ (damage - s.currentHp) / s.maxHp :=
      Int.ediv_nonneg hex (by omega)
    have hmod0 : 0 ≤ (damage - s.currentHp) % s.maxHp :=
      Int.emod_nonneg _ (by omega)
    have hmod1 : (damage - s.currentHp) % s.maxHp < s.maxHp :=
      Int.emod_lt_of_pos _ (by omega)
    rw [applySoldierDamage_of_le s damage hge (by omega)]
    split
    next hpos =>
      refine ⟨?_, ?_, ?_, ?_, fun hqz => ?_⟩ <;> simp_all <;> omega
    next hneg =>
      refine ⟨?_, ?_, ?_, ?_, fun hqz => ?_⟩ <;> simp_all <;> omega

/-- Absorbing exactly the front unit's hit points and restarting the
closed-form damage from a full next unit agrees with the closed form on the
original stack. -/
theorem applySoldierDamage_shift (s : Soldier) (damage : Int)
    (hM : 1 ≤ s.maxHp) (h1 : 1 ≤ s.currentHp) (h2 : s.currentHp ≤ s.maxHp)
    (hq : 2 ≤ s.quantity) (hge : s.currentHp ≤ damage) :
    applySoldierDamage
      { s with quantity := s.quantity - 1, currentHp := s.maxHp }
      (damage - s.currentHp) = applySoldierDamage s damage := by
  obtain ⟨sid, sM, sc, sa, sdf, sq, smq⟩ := s
  simp only at hM h1 h2 hq hge
  have hex : (0 : Int) ≤ damage - sc := by omega
  rw [applySoldierDamage_of_le _ damage hge (by simp only []; omega)]
  by_cases hlt : damage - sc < sM
  · have hdiv0 : (damage - sc) / sM = 0 := Int.ediv_eq_zero_of_lt hex hlt
    have hmod0 : (damage - sc) % sM = damage - sc := Int.emod_eq_of_lt hex hlt
    rw [hdiv0, hmod0]
    simp only [applySoldierDamage]
    rw [if_pos (show damage - sc < sM from hlt)]
    rw [if_pos (show (0 : Int) < max 0 (sq - (0 + 1)) by omega)]
    simp only [Soldier.mk.injEq, and_true, true_and]
    omega
  · have hge2 : sM ≤ damage - sc := by omega
    rw [applySoldierDamage_of_le _ (damage - sc) (by simp only []; omega) (by simp only []; omega)]
    have hdd : (damage - sc) / sM = (damage - sc - sM) / sM + 1 := by
      have h := Int.add_mul_ediv_right (damage - sc - sM) 1 (show sM ≠ 0 by omega)
      simp only [one_mul] at h
      have h2 : damage - sc - sM + sM = damage - sc := by ring
      rw [h2] at h
      exact h
    have hmm : (damage - sc) % sM = (damage - sc - sM) % sM := by
      have h := Int.add_mul_emod_self_left (a := damage - sc - sM) (b := sM) (c := 1)
      simp only [mul_one] at h
      have h2 : damage - sc - sM + sM = damage - sc := by ring
      rw [h2] at h
      exact h
    simp only [hdd, hmm]
    have hmax : max 0 (sq - 1 - ((damage - sc - sM) / sM + 1)) =
        max 0 (sq - ((damage - sc - sM) / sM + 1 + 1)) := by omega
    simp only [hmax]

/-- The unit-by-unit loop agrees with the closed form, by induction on the
stack quantity. -/
theorem applySoldierDamageLoop_eq_aux (n : Nat) :
    ∀ (s : Soldier) (damage : Int), s.quantity.toNat ≤ n →
      1 ≤ s.maxHp → 1 ≤ s.currentHp → s.currentHp ≤ s.maxHp →
      1 ≤ s.quantity → 0 ≤ damage →
      applySoldierDamageLoop s damage = applySoldierDamage s damage := by
  induction n with
  | zero =>
    intro s damage hn _ _ _ hq _
    omega
  | succ n ih =>
    intro s damage hn hM h1 h2 hq hd
    rw [applySoldierDamageLoop]
    by_cases hpos : 0 < damage
    · rw [dif_pos ⟨hpos, by omega⟩]
      by_cases hhp : s.currentHp > damage
      · rw [if_pos hhp]
        simp only [applySoldierDamage, if_pos (show damage < s.currentHp from hhp)]
      · rw [if_neg hhp]
        have hge : s.currentHp ≤ damage := by omega
        by_cases hq1 : s.quantity = 1
        · rw [if_neg (by omega : ¬ s.quantity - 1 > 0)]
          rw [applySoldierDamageLoop]
          rw [dif_neg (by simp; omega)]
          rw [applySoldierDamage_of_le s damage hge (by omega)]
          have hdivnn : 0 ≤ (damage - s.currentHp) / s.maxHp :=
            Int.ediv_nonneg (by omega) (by omega)
          rw [if_neg (by omega : ¬ (0 : Int) < max 0 (s.quantity - ((damage - s.currentHp) / s.maxHp + 1)))]
          obtain ⟨sid, sM, sc, sa, sdf, sq, smq⟩ := s
          simp only at hq1
          simp only [Soldier.mk.injEq, and_true, true_and]
          omega
        · have hq2 : 2 ≤ s.quantity := by omega
          rw [if_pos (by omega : s.quantity - 1 > 0)]
          rw [ih { s with quantity := s.quantity - 1, currentHp := s.maxHp }
            (damage - s.currentHp)
            (by simp; omega) (by simp; omega) (by simp; omega)
            (by simp) (by simp; omega) (by omega)]
          exact applySoldierDamage_shift s damage hM h1 h2 hq2 hge
    · rw [dif_neg (by omega)]
      have hd0 : damage = 0 := by omega
      subst hd0
      simp only [applySoldierDamage, if_pos (show (0:Int) < s.currentHp by omega)]
      obtain ⟨sid, sM, sc, sa, sdf, sq, smq⟩ := s
      simp only [Soldier.mk.injEq, and_true, true_and]
      omega

/-! ## Claim theorems -/

/-- C5: the computed base damage is `max(1, attacker.attack -
defender.defense)`, hence at least 1 for every attacker and defender: no
attack ever deals less than 1 damage. -/
theorem calculateDamage_minimum (attacker defender : Combatant) :
    calculateDamage attacker defender = max 1 (attacker.attack - defender.defense) ∧
    1 ≤ calculateDamage attacker defender :=
  ⟨rfl, le_max_left 1 _⟩

/-- C1: for a stack with `1 ≤ currentHp ≤ maxHp` and `quantity ≥ 1`, damage
below the front unit's hit points only lowers those hit points with the
quantity unchanged; otherwise, with `excess = damage - currentHp`, exactly
`1 + excess / maxHp` units are lost, the new quantity is
`max 0 (quantity - unitsLost)`, a surviving stack's new front unit keeps
`maxHp - excess % maxHp` hit points, and a depleted stack is forced to
currentHp 0. -/
theorem applySoldierDamage_spec (s : Soldier) (damage : Int)
    (h1 : 1 ≤ s.currentHp) (h2 : s.currentHp ≤ s.maxHp) (h3 : 1 ≤ s.quantity) :
    (damage < s.currentHp →
      applySoldierDamage s damage = { s with currentHp := s.currentHp - damage }) ∧
    (s.currentHp ≤ damage →
      (applySoldierDamage s damage).quantity =
        max 0 (s.quantity - (1 + (damage - s.currentHp) / s.maxHp)) ∧
      (0 < (applySoldierDamage s damage).quantity →
        (applySoldierDamage s damage).currentHp =
          s.maxHp - (damage - s.currentHp) % s.maxHp) ∧
      ((applySoldierDamage s damage).quantity = 0 →
        (applySoldierDamage s damage).currentHp = 0)) := by
  constructor
  · intro hlt
    simp only [applySoldierDamage, if_pos hlt]
  · intro hge
    rw [applySoldierDamage_of_le s damage hge (by omega)]
    split
    next hpos =>
      refine ⟨?_, fun hq2 => ?_, fun hqz => ?_⟩ <;> simp_all <;> omega
    next hneg =>
      refine ⟨?_, fun hq2 => ?_, fun hqz => ?_⟩ <;> simp_all <;> omega

/-- Witness for C1 at the spec scenario: a stack with quantity 3, maxHp 30
and full HP that takes 40 damage in one hit ends with quantity 2 and
currentHp 20. -/
theorem applySoldierDamage_spec_witness :
    (applySoldierDamage ⟨10, 30, 30, 10, 2, 3, 5⟩ 40).quantity = 2 ∧
    (applySoldierDamage ⟨10, 30, 30, 10, 2, 3, 5⟩ 40).currentHp = 20 := by
  have h := (applySoldierDamage_spec ⟨10, 30, 30, 10, 2, 3, 5⟩ 40
    (by decide) (by decide) (by decide)).2 (by decide)
  obtain ⟨hq, hhp, -⟩ := h
  simp only [] at hq hhp
  have hq2 : (applySoldierDamage ⟨10, 30, 30, 10, 2, 3, 5⟩ 40).quantity = 2 := by
    omega
  have hhp2 := hhp (by omega)
  exact ⟨hq2, by omega⟩

/-- C4: on well-formed inputs and a nonnegative damage or heal amount,
`applyDamage`, `healCharacter` and `applySoldierDamage` keep hit points
within `[0, maxHp]`, the stack quantity within `[0, maxQuantity]`, and a
depleted stack at 0 hit points. -/
theorem damage_heal_invariants (c : Character) (s : Soldier) (damage healAmount : Int)
    (hc0 : 0 ≤ c.currentHp) (hc1 : c.currentHp ≤ c.maxHp)
    (hs0 : 0 ≤ s.currentHp) (hs1 : s.currentHp ≤ s.maxHp)
    (hq0 : 0 ≤ s.quantity) (hq1 : s.quantity ≤ s.maxQuantity)
    (hM : 1 ≤ s.maxHp) (hz : s.quantity = 0 → s.currentHp = 0)
    (hd : 0 ≤ damage) (hh : 0 ≤ healAmount) :
    (0 ≤ (applyDamage c damage).currentHp ∧
      (applyDamage c damage).currentHp ≤ (applyDamage c damage).maxHp) ∧
    (0 ≤ (healCharacter c healAmount).currentHp ∧
      (healCharacter c healAmount).currentHp ≤ (healCharacter c healAmount).maxHp) ∧
    (0 ≤ (applySoldierDamage s damage).currentHp ∧
      (applySoldierDamage s damage).currentHp ≤ (applySoldierDamage s damage).maxHp ∧
      0 ≤ (applySoldierDamage s damage).quantity ∧
      (applySoldierDamage s damage).quantity ≤ (applySoldierDamage s damage).maxQuantity ∧
      ((applySoldierDamage s damage).quantity = 0 →
        (applySoldierDamage s damage).currentHp = 0)) :=
  ⟨by constructor <;> simp [applyDamage] <;> omega,
   by constructor <;> simp [healCharacter, updateCharacterHp] <;> omega,
   applySoldierDamage_invariants s damage hs0 hs1 hq0 hq1 hM hz hd⟩

/-- Witness for C4 at a concrete character, stack, damage and heal. -/
theorem damage_heal_invariants_witness :
    0 ≤ (applyDamage ⟨1, 100, 40, 20, 5, CharType.player, [], Formation.playerFirst⟩ 95).currentHp ∧
    ((applySoldierDamage ⟨10, 30, 30, 10, 2, 3, 5⟩ 95).quantity = 0 →
      (applySoldierDamage ⟨10, 30, 30, 10, 2, 3, 5⟩ 95).currentHp = 0) := by
  have h := damage_heal_invariants
    ⟨1, 100, 40, 20, 5, CharType.player, [], Formation.playerFirst⟩
    ⟨10, 30, 30, 10, 2, 3, 5⟩ 95 12
    (by decide) (by decide) (by decide) (by decide) (by decide) (by decide)
    (by decide) (by decide) (by decide) (by decide)
  obtain ⟨⟨ha, -⟩, -, -, -, -, -, hlast⟩ := h
  exact ⟨ha, hlast⟩

/-- C10: on a well-formed stack (`maxHp ≥ 1`, `1 ≤ currentHp ≤ maxHp`,
`quantity ≥ 1`) and nonnegative damage, the loop-based and the closed-form
`applySoldierDamage` return equal resulting stacks. -/
theorem applySoldierDamageLoop_eq_closed (s : Soldier) (damage : Int)
    (hM : 1 ≤ s.maxHp) (h1 : 1 ≤ s.currentHp) (h2 : s.currentHp ≤ s.maxHp)
    (hq : 1 ≤ s.quantity) (hd : 0 ≤ damage) :
    applySoldierDamageLoop s damage = applySoldierDamage s damage :=
  applySoldierDamageLoop_eq_aux s.quantity.toNat s damage le_rfl hM h1 h2 hq hd

/-- Witness for C10 at a concrete stack and damage spanning several units. -/
theorem applySoldierDamageLoop_eq_closed_witness :
    applySoldierDamageLoop ⟨10, 30, 25, 10, 2, 4, 5⟩ 100 =
      applySoldierDamage ⟨10, 30, 25, 10, 2, 4, 5⟩ 100 :=
  applySoldierDamageLoop_eq_closed ⟨10, 30, 25, 10, 2, 4, 5⟩ 100
    (by decide) (by decide) (by decide) (by decide) (by decide)

/-- Helper: `findItemEntry` finds nothing exactly when no inventory item
carries the requested id. -/
theorem findItemEntry_eq_none_iff (items : List Item) (itemId : EntityId) :
    findItemEntry items itemId = none ↔ ∀ item ∈ items, item.id ≠ itemId := by
  induction items with
  | nil => simp [findItemEntry]
  | cons hd tl ih =>
    by_cases h : hd.id = itemId
    · simp [findItemEntry, h]
    · simp [findItemEntry, h, Option.map_eq_none', ih]

/-- C7: in the preparation phase of a running battle, `selectItem` rejects a
second selection in the same round and an unknown item id with
`INVALID_ACTION`, rejects a matched but exhausted item with
`INSUFFICIENT_ITEMS`, and otherwise records the pending item use targeting
the player lead character while leaving the phase, the round, both
characters and the item inventory unchanged. -/
theorem selectItem_spec (s : BattleState) (itemId : EntityId)
    (hphase : s.currentPhase = BattlePhase.preparation)
    (hgo : s.isGameOver = false) :
    (s.pendingItemUse.isSome = true →
      selectItem s itemId = Except.error GameErrorType.INVALID_ACTION) ∧
    (s.pendingItemUse = none → (∀ item ∈ s.playerItems, item.id ≠ itemId) →
      selectItem s itemId = Except.error GameErrorType.INVALID_ACTION) ∧
    (∀ idx item, s.pendingItemUse = none →
      findItemEntry s.playerItems itemId = some (idx, item) →
      item.quantity ≤ 0 →
      selectItem s itemId = Except.error GameErrorType.INSUFFICIENT_ITEMS) ∧
    (∀ idx item, s.pendingItemUse = none →
      findItemEntry s.playerItems itemId = some (idx, item) →
      0 < item.quantity →
      ∃ s', selectItem s itemId = Except.ok s' ∧
        s'.pendingItemUse = some ⟨item.id, s.player.id⟩ ∧
        s'.currentPhase = s.currentPhase ∧
        s'.currentRound = s.currentRound ∧
        s'.player = s.player ∧ s'.enemy = s.enemy ∧
        s'.playerItems = s.playerItems) := by
  refine ⟨?_, ?_, ?_, ?_⟩
  · intro hsome
    simp [selectItem, hphase, hgo, hsome]
  · intro hnone hun
    have hfind : findItemEntry s.playerItems itemId = none :=
      (findItemEntry_eq_none_iff s.playerItems itemId).mpr hun
    simp [selectItem, hphase, hgo, hnone, hfind]
  · intro idx item hnone hfind hqty
    have hcannot : canUseItem item = false := by
      simp [canUseItem]; omega
    simp [selectItem, hphase, hgo, hnone, hfind, hcannot]
  · intro idx item hnone hfind hqty
    have hcan : canUseItem item = true := by
      simp [canUseItem]; omega
    refine ⟨{ s with
        pendingItemUse := some ⟨item.id, s.player.id⟩,
        battleLog := s.battleLog ++
          [⟨BattlePhase.preparation, LogMsg.itemSelected, s.currentRound⟩] },
      ?_, rfl, rfl, rfl, rfl, rfl, rfl⟩
    simp [selectItem, hphase, hgo, hnone, hfind, hcan]

/-- Witness for C7's success case on the sample state. -/
theorem selectItem_spec_witness :
    ∃ s', selectItem sampleState 100 = Except.ok s' ∧
      s'.pendingItemUse = some ⟨100, 1⟩ := by
  obtain ⟨-, -, -, hok⟩ := selectItem_spec sampleState 100 rfl rfl
  obtain ⟨s', h1, h2, -⟩ := hok 0 samplePotion rfl rfl (by decide)
  exact ⟨s', h1, h2⟩

/-- C9 (amended): in the preparation phase of a running battle with a
nonnegative (or unset) countdown, `decreasePreparationTimer` succeeds and
never changes the phase or the round; a countdown `t ≥ 1` becomes `t - 1`
(never negative); a countdown of 0 — like an unset one — is falsy in the
source expression `preparationTimer || 30`, so it is treated as 30 and
becomes 29 rather than staying 0; the automatic-advance log entry is
appended exactly when the countdown goes from 1 to 0 with no action taken
this round. -/
theorem decreasePreparationTimer_spec (s : BattleState)
    (hphase : s.currentPhase = BattlePhase.preparation)
    (hgo : s.isGameOver = false)
    (htnn : ∀ t, s.preparationTimer = some t → 0 ≤ t) :
    ∃ s', decreasePreparationTimer s = Except.ok s' ∧
      s'.currentPhase = s.currentPhase ∧
      s'.currentRound = s.currentRound ∧
      (∀ t, s.preparationTimer = some t → 1 ≤ t →
        s'.preparationTimer = some (t - 1)) ∧
      ((s.preparationTimer = some 0 ∨ s.preparationTimer = none) →
        s'.preparationTimer = some 29) ∧
      (s.preparationTimer = some 1 → s.preparationActionTaken = false →
        s'.battleLog = s.battleLog ++
          [⟨BattlePhase.preparation, LogMsg.timerAutoAdvance, s.currentRound⟩]) ∧
      (¬ (s.preparationTimer = some 1 ∧ s.preparationActionTaken = false) →
        s'.battleLog = s.battleLog) := by
  have hguard : decreasePreparationTimer s =
      (if timerOrDefault s.preparationTimer - 1 ≤ 0 ∧
          s.preparationActionTaken = false then
        Except.ok { s with
          preparationTimer := some 0,
          battleLog := s.battleLog ++
            [⟨BattlePhase.preparation, LogMsg.timerAutoAdvance, s.currentRound⟩] }
      else
        Except.ok { s with
          preparationTimer := some (timerOrDefault s.preparationTimer - 1) }) := by
    simp [decreasePreparationTimer, hphase, hgo]
  rcases hT : s.preparationTimer with - | t
  · rw [hT] at hguard
    refine ⟨{ s with preparationTimer := some 29 }, ?_, rfl, rfl, ?_, ?_, ?_, ?_⟩
    · rw [hguard]
      norm_num [timerOrDefault]
    · intro t ht
      simp at ht
    · intro _
      rfl
    · intro ht hflag
      simp at ht
    · intro _
      rfl
  · rw [hT] at hguard
    have htpos : 0 ≤ t := htnn t hT
    by_cases ht0 : t = 0
    · subst ht0
      refine ⟨{ s with preparationTimer := some 29 }, ?_, rfl, rfl, ?_, ?_, ?_, ?_⟩
      · rw [hguard]
        norm_num [timerOrDefault]
      · intro u hu h1u
        simp at hu
        omega
      · intro _
        rfl
      · intro hu hflag
        simp at hu
      · intro _
        rfl
    · have htd : timerOrDefault (some t) = t := by simp [timerOrDefault, ht0]
      rw [htd] at hguard
      by_cases hc : t - 1 ≤ 0 ∧ s.preparationActionTaken = false
      · have ht1 : t = 1 := by omega
        subst ht1
        refine ⟨{ s with
            preparationTimer := some 0,
            battleLog := s.battleLog ++
              [⟨BattlePhase.preparation, LogMsg.timerAutoAdvance, s.currentRound⟩] },
          ?_, rfl, rfl, ?_, ?_, ?_, ?_⟩
        · rw [hguard, if_pos hc]
        · intro u hu h1u
          simp at hu
          subst hu
          simp
        · intro hu
          rcases hu with hu | hu <;> simp at hu
        · intro _ _
          rfl
        · intro hcon
          exact absurd ⟨rfl, hc.2⟩ hcon
      · refine ⟨{ s with preparationTimer := some (t - 1) }, ?_, rfl, rfl,
          ?_, ?_, ?_, ?_⟩
        · rw [hguard, if_neg hc]
        · intro u hu h1u
          simp at hu
          subst hu
          rfl
        · intro hu
          rcases hu with hu | hu
          · simp at hu
            exact absurd hu ht0
          · simp at hu
        · intro hu hflag
          simp at hu
          subst hu
          exact absurd ⟨by omega, hflag⟩ hc
        · intro _
          rfl

/-- Counterexample to C9 as stated: on the sample preparation state with the
countdown already at 0, `decreasePreparationTimer` returns a countdown of
29, not 0 — the source expression `preparationTimer || 30` treats the falsy
0 as unset, so the countdown does not stay at 0. -/
theorem decreasePreparationTimer_zero_cex :
    ({ sampleState with preparationTimer := some 0 } : BattleState).preparationTimer
        = some 0 ∧
    ∃ s', decreasePreparationTimer { sampleState with preparationTimer := some 0 }
        = Except.ok s' ∧ s'.preparationTimer = some 29 :=
  ⟨rfl, _, rfl, rfl⟩

/-- C8 (amended): after `isGameOver` is set, every listed mutating engine
operation except `startResolutionPhase` fails without returning a state:
`startPreparationPhase` fails with `BATTLE_ALREADY_ENDED` in any phase, and
each phase-guarded operation fails with `BATTLE_ALREADY_ENDED` in its
accepted phase and with `INVALID_PHASE` outside it (its phase guard runs
first); `startResolutionPhase` performs no game-over check at all. -/
theorem gameOver_mutations_fail (s : BattleState) (hgo : s.isGameOver = true) :
    startPreparationPhase s = Except.error GameErrorType.BATTLE_ALREADY_ENDED ∧
    (s.currentPhase = BattlePhase.preparation →
      startBattlePhase s = Except.error GameErrorType.BATTLE_ALREADY_ENDED ∧
      enterBattle s = Except.error GameErrorType.BATTLE_ALREADY_ENDED ∧
      (∀ itemId, selectItem s itemId =
        Except.error GameErrorType.BATTLE_ALREADY_ENDED) ∧
      decreasePreparationTimer s = Except.error GameErrorType.BATTLE_ALREADY_ENDED ∧
      markPreparationActionTaken s = Except.error GameErrorType.BATTLE_ALREADY_ENDED) ∧
    (s.currentPhase = BattlePhase.battle →
      executePendingItemUse s = Except.error GameErrorType.BATTLE_ALREADY_ENDED) ∧
    (s.currentPhase = BattlePhase.resolution →
      nextRound s = Except.error GameErrorType.BATTLE_ALREADY_ENDED) ∧
    (s.currentPhase ≠ BattlePhase.preparation →
      startBattlePhase s = Except.error GameErrorType.INVALID_PHASE ∧
      enterBattle s = Except.error GameErrorType.INVALID_PHASE ∧
      (∀ itemId, selectItem s itemId = Except.error GameErrorType.INVALID_PHASE) ∧
      decreasePreparationTimer s = Except.error GameErrorType.INVALID_PHASE ∧
      markPreparationActionTaken s = Except.error GameErrorType.INVALID_PHASE) ∧
    (s.currentPhase ≠ BattlePhase.battle →
      executePendingItemUse s = Except.error GameErrorType.INVALID_PHASE) ∧
    (s.currentPhase ≠ BattlePhase.resolution →
      nextRound s = Except.error GameErrorType.INVALID_PHASE) := by
  refine ⟨?_, ?_, ?_, ?_, ?_, ?_, ?_⟩
  · simp [startPreparationPhase, hgo]
  · intro hphase
    refine ⟨?_, ?_, fun itemId => ?_, ?_, ?_⟩ <;>
      simp [startBattlePhase, autoExecuteBattlePhase, enterBattle, selectItem,
        decreasePreparationTimer, markPreparationActionTaken, hgo, hphase,
        Bind.bind, Except.bind, throw, throwThe, MonadExceptOf.throw, pure,
        Except.pure]
  · intro hphase
    simp [executePendingItemUse, hgo, hphase]
  · intro hphase
    simp [nextRound, hgo, hphase]
  · intro hphase
    refine ⟨?_, ?_, fun itemId => ?_, ?_, ?_⟩ <;>
      simp [startBattlePhase, enterBattle, selectItem,
        decreasePreparationTimer, markPreparationActionTaken, hgo, hphase]
  · intro hphase
    simp [executePendingItemUse, hgo, hphase]
  · intro hphase
    simp [nextRound, hgo, hphase]

/-- Witness for C8 (amended) on a game-over sample state in the preparation
phase. -/
theorem gameOver_mutations_fail_witness :
    startPreparationPhase { sampleState with isGameOver := true }
        = Except.error GameErrorType.BATTLE_ALREADY_ENDED ∧
    startBattlePhase { sampleState with isGameOver := true }
        = Except.error GameErrorType.BATTLE_ALREADY_ENDED ∧
    enterBattle { sampleState with isGameOver := true }
        = Except.error GameErrorType.BATTLE_ALREADY_ENDED := by
  have h := gameOver_mutations_fail { sampleState with isGameOver := true } rfl
  exact ⟨h.1, (h.2.1 rfl).1, (h.2.1 rfl).2.1⟩

/-- Counterexample to C8 as stated: a game-over state in the battle phase on
which `startResolutionPhase` does not fail with `BATTLE_ALREADY_ENDED`: it
has no game-over guard and returns a state. -/
theorem startResolutionPhase_gameOver_cex :
    ({ sampleState with currentPhase := BattlePhase.battle, isGameOver := true } :
        BattleState).isGameOver = true ∧
    ∃ s', startResolutionPhase
        { sampleState with currentPhase := BattlePhase.battle, isGameOver := true }
        = Except.ok s' :=
  ⟨rfl, _, rfl⟩

/-- C2: from the battle phase, once `startResolutionPhase` has applied every
calculated damage record in original order, side liveness of the resulting
characters decides the outcome: exactly one side alive sets `isGameOver`,
records that side as the winner, stays in the resolution phase and clears
`pendingActions`; both sides alive — for example a side whose lead character
died while a soldier stack still has units — leaves `isGameOver` false. -/
theorem startResolutionPhase_outcome (s s' : BattleState)
    (hphase : s.currentPhase = BattlePhase.battle)
    (hok : startResolutionPhase s = Except.ok s') :
    (isCharacterOrSoldiersAlive s'.player = true →
      isCharacterOrSoldiersAlive s'.enemy = false →
      s'.isGameOver = true ∧ s'.winner = some Side.player ∧
      s'.currentPhase = BattlePhase.resolution ∧ s'.pendingActions = []) ∧
    (isCharacterOrSoldiersAlive s'.player = false →
      isCharacterOrSoldiersAlive s'.enemy = true →
      s'.isGameOver = true ∧ s'.winner = some Side.enemy ∧
      s'.currentPhase = BattlePhase.resolution ∧ s'.pendingActions = []) ∧
    (isCharacterOrSoldiersAlive s'.player = true →
      isCharacterOrSoldiersAlive s'.enemy = true →
      s'.isGameOver = false) := by
  rw [startResolutionPhase, if_neg (by simp [hphase])] at hok
  simp only [] at hok
  split at hok
  next hdead =>
    simp only [Except.ok.injEq] at hok
    subst hok
    simp only []
    refine ⟨?_, ?_, ?_⟩
    · intro hp he
      simp [hp]
    · intro hp he
      simp [hp]
    · intro hp he
      rcases hdead with h | h
      · rw [hp] at h
        exact absurd h (by simp)
      · rw [he] at h
        exact absurd h (by simp)
  next halive =>
    rw [nextRound, if_neg (by simp)] at hok
    simp only [Bool.false_eq_true, if_false, Except.ok.injEq] at hok
    subst hok
    exact ⟨fun _ he => absurd he (by simpa using (not_or.mp halive).2),
           fun hp _ => absurd hp (by simpa using (not_or.mp halive).1),
           fun _ _ => rfl⟩

/-- Witness for C2: with no damage records, a player side alive only through
its soldier stack keeps the battle running, while a fully dead enemy side
ends it with the player as winner. -/
theorem startResolutionPhase_outcome_witness :
    (∃ s', startResolutionPhase sampleBothAliveState = Except.ok s' ∧
      s'.isGameOver = false) ∧
    (∃ s', startResolutionPhase sampleOneAliveState = Except.ok s' ∧
      s'.isGameOver = true ∧ s'.winner = some Side.player ∧
      s'.currentPhase = BattlePhase.resolution ∧ s'.pendingActions = []) := by
  constructor
  · refine ⟨_, rfl, ?_⟩
    have h := startResolutionPhase_outcome sampleBothAliveState _ rfl rfl
    exact h.2.2 (by decide) (by decide)
  · refine ⟨_, rfl, ?_⟩
    have h := startResolutionPhase_outcome sampleOneAliveState _ rfl rfl
    exact h.1 (by decide) (by decide)

/-- `executeItemOnCharacter` never changes the round, the phase or the
game-over flag. -/
theorem executeItemOnCharacter_preserves (st : BattleState) (targetId : EntityId)
    (idx : Nat) (item : Item) (t : BattleState)
    (hok : executeItemOnCharacter st targetId idx item = Except.ok t) :
    t.currentRound = st.currentRound ∧ t.currentPhase = st.currentPhase ∧
    t.isGameOver = st.isGameOver := by
  rw [executeItemOnCharacter] at hok
  split at hok
  · simp only [] at hok
    split at hok
    · exact absurd hok (by simp)
    · simp only [Except.ok.injEq] at hok
      subst hok
      exact ⟨rfl, rfl, rfl⟩
  · exact absurd hok (by simp)

/-- `executePendingItemUse` never changes the round, the phase or the
game-over flag. -/
theorem executePendingItemUse_preserves (st t : BattleState)
    (hok : executePendingItemUse st = Except.ok t) :
    t.currentRound = st.currentRound ∧ t.currentPhase = st.currentPhase ∧
    t.isGameOver = st.isGameOver := by
  rw [executePendingItemUse] at hok
  split at hok
  · exact absurd hok (by simp)
  split at hok
  · exact absurd hok (by simp)
  split at hok
  · simp only [Except.ok.injEq] at hok
    subst hok
    exact ⟨rfl, rfl, rfl⟩
  split at hok
  · exact absurd hok (by simp)
  split at hok
  · exact absurd hok (by simp)
  split at hok
  · split at hok
    · simp only [] at hok
      split at hok
      · exact absurd hok (by simp)
      · simp only [Except.ok.injEq] at hok
        subst hok
        exact ⟨rfl, rfl, rfl⟩
    · exact executeItemOnCharacter_preserves _ _ _ _ _ hok
  · exact executeItemOnCharacter_preserves _ _ _ _ _ hok

/-- From the battle phase, a successful `startResolutionPhase` either ends
the battle in the resolution phase with the round unchanged, or advances to
the next round's preparation phase. -/
theorem startResolutionPhase_shape (st s' : BattleState)
    (hphase : st.currentPhase = BattlePhase.battle)
    (hok : startResolutionPhase st = Except.ok s') :
    (s'.isGameOver = true ∧ s'.currentPhase = BattlePhase.resolution ∧
      s'.currentRound = st.currentRound) ∨
    (s'.isGameOver = false ∧ s'.currentPhase = BattlePhase.preparation ∧
      s'.currentRound = st.currentRound + 1) := by
  rw [startResolutionPhase, if_neg (by simp [hphase])] at hok
  simp only [] at hok
  split at hok
  · left
    simp only [Except.ok.injEq] at hok
    subst hok
    exact ⟨rfl, rfl, rfl⟩
  · right
    rw [nextRound, if_neg (by simp)] at hok
    simp only [Bool.false_eq_true, if_false, Except.ok.injEq] at hok
    subst hok
    exact ⟨rfl, rfl, rfl⟩

/-- From a battle-phase, non-game-over state, a successful
`autoExecuteBattlePhase` ends like the resolution phase it invokes. -/
theorem autoExecuteBattlePhase_shape (st s' : BattleState)
    (hphase : st.currentPhase = BattlePhase.battle)
    (hgo : st.isGameOver = false)
    (hok : autoExecuteBattlePhase st = Except.ok s') :
    (s'.isGameOver = true ∧ s'.currentPhase = BattlePhase.resolution ∧
      s'.currentRound = st.currentRound) ∨
    (s'.isGameOver = false ∧ s'.currentPhase = BattlePhase.preparation ∧
      s'.currentRound = st.currentRound + 1) := by
  rw [autoExecuteBattlePhase] at hok
  simp only [hphase, hgo, Bind.bind, Except.bind, throw, throwThe,
    MonadExceptOf.throw, pure, Except.pure, reduceIte, ne_eq,
    not_true_eq_false, Bool.false_eq_true, if_false] at hok
  rcases hP : st.pendingItemUse with - | pu
  · rw [hP] at hok
    simp only [] at hok
    rcases hF : st.player.soldiers.filter (fun s => isSoldierAlive s) with - | ⟨f, fr⟩ <;>
      rw [hF] at hok <;>
      simp only [] at hok <;>
      rcases hE : st.enemy.soldiers.filter (fun s => isSoldierAlive s) with - | ⟨e, er⟩ <;>
      rw [hE] at hok <;>
      simp only [] at hok <;>
      (have hres := startResolutionPhase_shape _ s' (by rfl) hok) <;>
      exact hres
  · rw [hP] at hok
    simp only [] at hok
    rcases hX : executePendingItemUse st with e | st1
    · rw [hX] at hok
      exact absurd hok (by simp)
    · rw [hX] at hok
      simp only [] at hok
      obtain ⟨hr, hp, hg⟩ := executePendingItemUse_preserves st st1 hX
      rcases hE : st.enemy.soldiers.filter (fun s => isSoldierAlive s) with - | ⟨e, er⟩ <;>
        rw [hE] at hok <;>
        simp only [] at hok <;>
        (have hres := startResolutionPhase_shape _ s'
          (by simp only []; rw [hp]; exact hphase) hok) <;>
        (simp only [] at hres) <;>
        (rw [hr] at hres) <;>
        exact hres

/-- C3: from the preparation phase of a running battle, a successful
`startBattlePhase` (which synchronously runs the battle phase and the
resolution phase) ends back in the preparation phase with the round
incremented by exactly 1 — unless the resolution makes `isGameOver` true,
in which case it ends in the resolution phase with the round unchanged. -/
theorem startBattlePhase_roundCycle (s s' : BattleState)
    (hphase : s.currentPhase = BattlePhase.preparation)
    (hgo : s.isGameOver = false)
    (hok : startBattlePhase s = Except.ok s') :
    (s'.isGameOver = false →
      s'.currentPhase = BattlePhase.preparation ∧
      s'.currentRound = s.currentRound + 1) ∧
    (s'.isGameOver = true →
      s'.currentPhase = BattlePhase.resolution ∧
      s'.currentRound = s.currentRound) := by
  rw [startBattlePhase, if_neg (by simp [hphase])] at hok
  have hshape := autoExecuteBattlePhase_shape _ s' (by rfl) (by exact hgo) hok
  rcases hshape with ⟨h1, h2, h3⟩ | ⟨h1, h2, h3⟩
  · exact ⟨fun hfo => absurd h1 (by simp [hfo]), fun _ => ⟨h2, h3⟩⟩
  · exact ⟨fun _ => ⟨h2, h3⟩, fun hto => absurd h1 (by simp [hto])⟩

/-- Witness for C3: a full round from the sample preparation state returns
to the preparation phase with the round incremented to 2. -/
theorem startBattlePhase_roundCycle_witness :
    ∃ s', startBattlePhase sampleState = Except.ok s' ∧ s'.isGameOver = false ∧
      s'.currentPhase = BattlePhase.preparation ∧ s'.currentRound = 2 := by
  refine ⟨_, rfl, ?_⟩
  have h := startBattlePhase_roundCycle sampleState _ rfl rfl rfl
  have h2 := h.1 (by decide)
  exact ⟨by decide, h2.1, by rw [h2.2]; decide⟩

/-- On a character with a nonnegative hit-point ceiling and a heal that
keeps the total nonnegative, `healCharacter` is exactly the
`min(maxHp, currentHp + amount)` update. -/
theorem healCharacter_min (c : Character) (amount : Int)
    (hM : 0 ≤ c.maxHp) (hsum : 0 ≤ c.currentHp + amount) :
    healCharacter c amount =
      { c with currentHp := min c.maxHp (c.currentHp + amount) } := by
  simp only [healCharacter, updateCharacterHp]
  congr 1
  omega

/-- Counterexample to C6 as stated: a soldiers-first player whose first
stack is dead but whose second stack is alive. A living stack exists, yet
`executePendingItemUse` does not redirect the heal — it only inspects
`soldiers[0]` — and instead heals the recorded target character. -/
theorem executePendingItemUse_redirect_cex :
    sampleDeadFrontState.player.formation = Formation.soldiersFirst ∧
    sampleDeadFrontState.player.soldiers.any isSoldierAlive = true ∧
    ∃ s', executePendingItemUse sampleDeadFrontState = Except.ok s' ∧
      s'.player.soldiers = sampleDeadFrontState.player.soldiers ∧
      s'.player.currentHp = 80 :=
  ⟨rfl, rfl, _, rfl, rfl, rfl⟩

/-- C6 (amended): in the battle phase of a running battle with a pending use
of a usable healing potion, the heal is redirected to the front unit of the
player's FIRST soldier stack exactly when the player's formation is
soldiers-first, the stack list is nonempty and that first stack is alive
(later living stacks are never considered); the redirected heal sets that
stack's hit points to `min(maxHp, currentHp + heal)` and never changes its
quantity. Otherwise the recorded target character is healed by the same
formula. In every success case the item's quantity drops by exactly 1 and
the pending use is cleared. -/
theorem executePendingItemUse_heal (s : BattleState) (pu : PendingItemUse)
    (idx : Nat) (item : Item) (healAmount : Int)
    (hphase : s.currentPhase = BattlePhase.battle)
    (hgo : s.isGameOver = false)
    (hpend : s.pendingItemUse = some pu)
    (hfind : findItemEntry s.playerItems pu.itemId = some (idx, item))
    (hheal : item.effect.heal = some healAmount)
    (hpos : 0 < healAmount)
    (hqty : 0 < item.quantity)
    (htype : item.itype = ItemType.healingPotion)
    (hpmax : 0 ≤ s.player.maxHp) (hphp : 0 ≤ s.player.currentHp)
    (hemax : 0 ≤ s.enemy.maxHp) (hehp : 0 ≤ s.enemy.currentHp) :
    (∀ firstSoldier rest,
      s.player.formation = Formation.soldiersFirst →
      s.player.soldiers = firstSoldier :: rest →
      isSoldierAlive firstSoldier = true →
      0 ≤ firstSoldier.maxHp →
      executePendingItemUse s = Except.ok { s with
        player := { s.player with
          soldiers := { firstSoldier with
            currentHp := min firstSoldier.maxHp
              (firstSoldier.currentHp + healAmount) } :: rest },
        playerItems := s.playerItems.set idx { item with quantity := item.quantity - 1 },
        pendingItemUse := none,
        battleLog := s.battleLog ++
          [⟨BattlePhase.battle, LogMsg.itemHealedSoldier, s.currentRound⟩] }) ∧
    ((s.player.formation = Formation.playerFirst ∨ s.player.soldiers = [] ∨
      (∀ f r, s.player.soldiers = f :: r → isSoldierAlive f = false)) →
      (pu.targetId = s.player.id →
        executePendingItemUse s = Except.ok { s with
          player := { s.player with
            currentHp := min s.player.maxHp (s.player.currentHp + healAmount) },
          playerItems := s.playerItems.set idx { item with quantity := item.quantity - 1 },
          pendingItemUse := none,
          battleLog := s.battleLog ++
            [⟨BattlePhase.battle, LogMsg.itemHealedCharacter, s.currentRound⟩] }) ∧
      (pu.targetId ≠ s.player.id → pu.targetId = s.enemy.id →
        executePendingItemUse s = Except.ok { s with
          enemy := { s.enemy with
            currentHp := min s.enemy.maxHp (s.enemy.currentHp + healAmount) },
          playerItems := s.playerItems.set idx { item with quantity := item.quantity - 1 },
          pendingItemUse := none,
          battleLog := s.battleLog ++
            [⟨BattlePhase.battle, LogMsg.itemHealedCharacter, s.currentRound⟩] })) := by
  have hcan : canUseItem item = true := by simp [canUseItem]; omega
  have hne : ¬ healAmount = 0 := by omega
  constructor
  · intro f r hform hsol halive hfmax
    have hfc : 0 < f.currentHp := by
      simp [isSoldierAlive] at halive
      exact halive.1
    simp only [executePendingItemUse, hphase, hgo, hpend, hfind, hcan, hform,
      hsol, halive, useHealingPotion, htype, hheal, hne, healCharacter,
      updateCharacterHp, ne_eq, not_true_eq_false, Bool.false_eq_true,
      if_false, if_true, not_false_eq_true, ite_false, ite_true, reduceIte]
    simp only [Except.ok.injEq, BattleState.mk.injEq, Character.mk.injEq,
      List.cons.injEq, Soldier.mk.injEq, and_true, true_and]
    omega
  · intro hnored
    have hmatch : executePendingItemUse s =
        executeItemOnCharacter s pu.targetId idx item := by
      simp only [executePendingItemUse, hphase, hgo, hpend, hfind, hcan,
        ne_eq, not_true_eq_false, Bool.false_eq_true, if_false,
        not_false_eq_true, reduceIte]
      rcases hnored with hform | hsol | hdead
      · rw [hform]
      · rw [hsol]
        rcases hf : s.player.formation with - | - <;> rfl
      · rcases hsolcase : s.player.soldiers with - | ⟨f, fr⟩
        · rcases hf : s.player.formation with - | - <;> rfl
        · have hdf := hdead f fr hsolcase
          rcases hf : s.player.formation with - | -
          · simp [hdf]
          · rfl
    constructor
    · intro htgt
      rw [hmatch]
      simp only [executeItemOnCharacter, htgt, useHealingPotion, hcan, htype,
        hheal, hne, healCharacter, updateCharacterHp, ne_eq,
        not_true_eq_false, Bool.false_eq_true, if_false, not_false_eq_true,
        ite_true, ite_false, reduceIte, or_self, if_true, eq_self_iff_true,
        true_or]
      simp only [Except.ok.injEq, BattleState.mk.injEq, Character.mk.injEq,
        and_true, true_and]
      omega
    · intro hneq htgt
      rw [hmatch]
      have hne2 : ¬ (s.enemy.id = s.player.id) := fun hcontra => hneq (htgt.trans hcontra)
      simp only [executeItemOnCharacter, htgt, hne2, useHealingPotion, hcan,
        htype, hheal, hne, healCharacter, updateCharacterHp, ne_eq,
        not_true_eq_false, Bool.false_eq_true, if_false, not_false_eq_true,
        ite_true, ite_false, reduceIte, eq_self_iff_true, or_true, false_or,
        or_false]
      simp only [Except.ok.injEq, BattleState.mk.injEq, Character.mk.injEq,
        and_true, true_and]
      omega

/-- Witness for C6 (amended): with a living first stack at 10/30 hit points
and a 30-point potion, the heal is redirected to the stack (capped at 30,
quantity unchanged), the potion drops from 5 to 4, and the pending use is
cleared. -/
theorem executePendingItemUse_heal_witness :
    executePendingItemUse sampleAliveFrontState = Except.ok
      { sampleAliveFrontState with
        player := { sampleAliveFrontState.player with
          soldiers := [⟨11, 30, min 30 (10 + 30), 10, 2, 2, 5⟩] },
        playerItems := [⟨100, ItemType.healingPotion, ⟨some 30⟩, 4⟩],
        pendingItemUse := none,
        battleLog := sampleAliveFrontState.battleLog ++
          [⟨BattlePhase.battle, LogMsg.itemHealedSoldier, 1⟩] } := by
  have h := (executePendingItemUse_heal sampleAliveFrontState ⟨100, 1⟩ 0
    samplePotion 30 rfl rfl rfl rfl rfl (by decide) (by decide) rfl
    (by decide) (by decide) (by decide) (by decide)).1
    ⟨11, 30, 10, 10, 2, 2, 5⟩ [] rfl rfl (by decide) (by decide)
  rw [h]
  rfl

/-- Witness for C9 (amended) on the sample state: the countdown goes from
30 to 29 and the phase is untouched. -/
theorem decreasePreparationTimer_spec_witness :
    ∃ s', decreasePreparationTimer sampleState = Except.ok s' ∧
      s'.preparationTimer = some 29 ∧
      s'.currentPhase = sampleState.currentPhase := by
  obtain ⟨s', h1, h2, h3, h4, -⟩ := decreasePreparationTimer_spec sampleState
    rfl rfl (by intro t ht; simp [sampleState] at ht; omega)
  exact ⟨s', h1, by simpa using h4 30 rfl (by omega), h2⟩

end Battle
